import Mathlib

/-!
Shallow embedding of the WASM-4 "WASM Invaders" cartridge
(src/wasminvaders/src/main.c) and proofs about its per-frame simulation.

Machine `int` values are modelled as `Int`, `uint32_t` arithmetic as `Nat`
with explicit reduction modulo `2 ^ 32` / `2 ^ 31` where the C code masks,
and the fixed-capacity C arrays as Lean lists whose length is carried as an
invariant.  Calls to the console's draw primitives (`blit`, `rect`, `text`)
have no effect on simulation state and are omitted; calls to `tone` are
recorded in a per-frame trace field `tones`.
-/

namespace WasmInvaders

/-- Gamepad/mouse button masks and tone flags of the WASM-4 console. -/
def BUTTON_1 : Nat := 1

def BUTTON_LEFT : Nat := 16

def BUTTON_RIGHT : Nat := 32

def MOUSE_BUTTON_LEFT : Nat := 1

def TONE_PULSE1 : Nat := 0

def TONE_TRIANGLE : Nat := 2

def TONE_NOISE : Nat := 3

/-- Game constants from main.c. -/
def PLAYER_SPEED : Int := 2

def BULLET_SPEED : Int := 4

def ALIEN_COLS : Nat := 8

def ALIEN_ROWS : Nat := 6

def TOTAL_ALIENS : Nat := ALIEN_COLS * ALIEN_ROWS

def STAR_COUNT : Nat := 50

def EXPLOSION_DURATION : Int := 10

def GAME_STATE_MENU : Int := 0

def GAME_STATE_PLAYING : Int := 1

/-- A background star (struct Star). -/
structure Star where
  x : Int
  y : Int
  speed : Int
deriving DecidableEq

/-- The player ship (struct Player). -/
structure Player where
  x : Int
  y : Int
deriving DecidableEq

/-- The player's projectile (struct Bullet). -/
structure Bullet where
  x : Int
  y : Int
  active : Bool
deriving DecidableEq

/-- One alien slot (struct Alien). -/
structure Alien where
  x : Int
  y : Int
  alive : Bool
deriving DecidableEq

/-- One explosion slot (struct Explosion). -/
structure Explosion where
  x : Int
  y : Int
  life : Int
  active : Bool
deriving DecidableEq

/-- One call to the console's `tone` primitive (frequency, duration, volume, flags). -/
structure ToneEvent where
  freq : Nat
  dur : Nat
  vol : Nat
  flags : Nat
deriving DecidableEq

/-- The memory-mapped inputs read during one frame. -/
structure Input where
  gamepad : Nat
  mouse : Nat
deriving DecidableEq

/-- All global mutable state of main.c, plus the per-frame tone trace. -/
structure World where
  player : Player
  player_bullet : Bullet
  aliens : List Alien
  stars : List Star
  explosions : List Explosion
  game_state : Int
  alien_direction : Int
  alien_timer : Int
  current_alien_move_delay : Int
  score : Int
  random_seed : Nat
  aliens_left : Int
  current_wave : Int
  current_alien_rows : Int
  current_alien_cols : Int
  current_jingle_note_index : Int
  jingle_note_timer : Int
  playing_wave_jingle : Bool
  tones : List ToneEvent
deriving DecidableEq

/-- The LCG step: `random_seed = (random_seed * 1103515245 + 12345) & 0x7fffffff`
(the uint32 overflow followed by the 31-bit mask is reduction mod `2 ^ 31`). -/
def lcg_next (seed : Nat) : Nat :=
  (seed * 1103515245 + 12345) % 2 ^ 31

/-- `random_int(min, max)`: advance the seed, return
`min + (int)(random_seed % (uint32_t)(max - min + 1))` together with the new seed. -/
def random_int (mn mx : Int) (seed : Nat) : Int × Nat :=
  let s := lcg_next seed
  (mn + (s % (mx - mn + 1).toNat : Nat), s)

/-- The seed after `n` successive `random_int` calls (any bounds: the seed update
ignores them). -/
def rand_iter (mn mx : Int) (seed : Nat) : Nat → Nat
  | 0 => seed
  | n + 1 => (random_int mn mx (rand_iter mn mx seed n)).2

/-- `minimum` from main.c. -/
def minimum (a b : Int) : Int :=
  if a < b then a else b

/-- Apply `f` to the element at index `i` (no-op when out of range); models an
in-place write `arr[i].field = ...` to a fixed C array. -/
def modifyAt {α : Type} (f : α → α) : Nat → List α → List α
  | _, [] => []
  | 0, a :: as => f a :: as
  | n + 1, a :: as => a :: modifyAt f n as

/-- Number of alive aliens in a pool. -/
def countAlive (as : List Alien) : Nat :=
  as.countP (fun a => a.alive)

/-- The nested alive-initialization loops of `init_aliens`: for each
`y < rows`, `x < cols`, write slot `y * ALIEN_COLS + x` and increment the
`aliens_left` counter. -/
def init_loop (rows cols : Nat) (as : List Alien) : List Alien × Int :=
  (List.range rows).foldl
    (fun p y =>
      (List.range cols).foldl
        (fun q x =>
          (q.1.set (y * ALIEN_COLS + x)
            { x := 20 + (x : Int) * 12, y := 20 + (y : Int) * 12, alive := true },
           q.2 + 1))
        p)
    (as, 0)

/-- The pure-list part of the inner loop of `init_aliens` for one row. -/
def fill_row (y cols : Nat) (as : List Alien) : List Alien :=
  (List.range cols).foldl
    (fun acc x =>
      acc.set (y * ALIEN_COLS + x)
        { x := 20 + (x : Int) * 12, y := 20 + (y : Int) * 12, alive := true })
    as

/-- The pure-list part of the nested loops of `init_aliens`. -/
def fill_rows (rows cols : Nat) (as : List Alien) : List Alien :=
  (List.range rows).foldl (fun acc y => fill_row y cols acc) as

/-- The trailing loop of `init_aliens`: `for (i = aliens_left; i < m; ++i)
aliens[i].alive = FALSE`, generalized over the bound `m`. -/
def mark_dead_aux (n m : Nat) (as : List Alien) : List Alien :=
  (List.range m).foldl
    (fun acc i => if n ≤ i then modifyAt (fun a => { a with alive := false }) i acc else acc)
    as

/-- `for (i = aliens_left; i < TOTAL_ALIENS; ++i) aliens[i].alive = FALSE`. -/
def mark_dead_from (n : Nat) (as : List Alien) : List Alien :=
  mark_dead_aux n TOTAL_ALIENS as

/-- `init_aliens()`: clamp the formation dimensions, fill the grid of alive
aliens counting them in `aliens_left`, and mark the remaining slots dead. -/
def init_aliens (w : World) : World :=
  let rows := if w.current_alien_rows > (ALIEN_ROWS : Int) then (ALIEN_ROWS : Int) else w.current_alien_rows
  let cols := if w.current_alien_cols > (ALIEN_COLS : Int) then (ALIEN_COLS : Int) else w.current_alien_cols
  let p := init_loop rows.toNat cols.toNat w.aliens
  { w with
    current_alien_rows := rows
    current_alien_cols := cols
    aliens := mark_dead_from p.2.toNat p.1
    aliens_left := p.2 }

/-- `create_explosion(x, y)`: set the first inactive slot to
`(x, y, life = EXPLOSION_DURATION, active)` and stop; no slot inactive means
no change. -/
def create_explosion (x y : Int) : List Explosion → List Explosion
  | [] => []
  | e :: es =>
    if e.active = false then
      { x := x, y := y, life := EXPLOSION_DURATION, active := true } :: es
    else
      e :: create_explosion x y es

/-- The `init_stars` loop body iterated `n` times, threading the RNG seed. -/
def init_stars_list : Nat → Nat → List Star × Nat
  | 0, seed => ([], seed)
  | n + 1, seed =>
    let px := random_int 0 159 seed
    let py := random_int 0 159 px.2
    let ps := random_int 1 3 py.2
    let rest := init_stars_list n ps.2
    ({ x := px.1, y := py.1, speed := ps.1 } :: rest.1, rest.2)

/-- `init_stars()`. -/
def init_stars (w : World) : World :=
  let p := init_stars_list STAR_COUNT w.random_seed
  { w with stars := p.1, random_seed := p.2 }

/-- The C global variables at program load (statics are zero-initialized;
the explicitly initialized ones carry their initializers). -/
def initial_world : World where
  player := { x := 0, y := 0 }
  player_bullet := { x := 0, y := 0, active := false }
  aliens := List.replicate TOTAL_ALIENS { x := 0, y := 0, alive := false }
  stars := List.replicate STAR_COUNT { x := 0, y := 0, speed := 0 }
  explosions := List.replicate TOTAL_ALIENS { x := 0, y := 0, life := 0, active := false }
  game_state := 0
  alien_direction := 1
  alien_timer := 20
  current_alien_move_delay := 20
  score := 0
  random_seed := 1
  aliens_left := 0
  current_wave := 1
  current_alien_rows := 0
  current_alien_cols := 0
  current_jingle_note_index := 0
  jingle_note_timer := 0
  playing_wave_jingle := false
  tones := []

/-- `start()`: the one-time cartridge initialization. -/
def start (w : World) : World :=
  let w := init_stars w
  let w := { w with
    current_wave := 1
    current_alien_rows := 1
    current_alien_cols := (ALIEN_COLS : Int) }
  let w := init_aliens w
  { w with
    player := { x := 76, y := 140 }
    player_bullet := { w.player_bullet with active := false }
    game_state := GAME_STATE_MENU
    explosions := w.explosions.map (fun e => { e with active := false })
    current_alien_move_delay := 20
    alien_timer := 20 }

/-- The state after `start()` runs on the freshly loaded globals. -/
def start_world : World :=
  start initial_world

/-- One star's per-frame step in `draw_background_stars`:
`y += minimum(speed, 2); if (y > 160) { y = 0; x = random_int(0, 159); }`. -/
def update_star (p : Star × Nat) : Star × Nat :=
  let s := { p.1 with y := p.1.y + minimum p.1.speed 2 }
  if s.y > 160 then
    let r := random_int 0 159 p.2
    ({ s with y := 0, x := r.1 }, r.2)
  else
    (s, p.2)

/-- The `draw_background_stars` loop over the star pool, threading the seed. -/
def stars_step : List Star → Nat → List Star × Nat
  | [], seed => ([], seed)
  | st :: rest, seed =>
    let q := update_star (st, seed)
    let r := stars_step rest q.2
    (q.1 :: r.1, r.2)

/-- `draw_background_stars()` (the drawing itself has no simulation effect). -/
def draw_background_stars (w : World) : World :=
  let p := stars_step w.stars w.random_seed
  { w with stars := p.1, random_seed := p.2 }

/-- The wave-victory melody as the flat (frequency, duration) list. -/
def wave_jingle_melody : List Int :=
  [523, 7, 659, 7, 784, 15, 1047, 30, 0, 7]

def wave_jingle_length : Int := 10

/-- `play_wave_jingle()`. -/
def play_wave_jingle (w : World) : World :=
  if w.playing_wave_jingle = false then w
  else if w.jingle_note_timer > 0 then
    { w with jingle_note_timer := w.jingle_note_timer - 1 }
  else if w.current_jingle_note_index < wave_jingle_length then
    let frequency := (wave_jingle_melody.get? w.current_jingle_note_index.toNat).getD 0
    let duration := (wave_jingle_melody.get? (w.current_jingle_note_index.toNat + 1)).getD 0
    let w := if frequency ≠ 0 then
        { w with tones := w.tones ++ [⟨frequency.toNat, duration.toNat, 100, TONE_TRIANGLE⟩] }
      else w
    { w with
      jingle_note_timer := duration
      current_jingle_note_index := w.current_jingle_note_index + 2 }
  else
    { w with playing_wave_jingle := false, tones := w.tones ++ [⟨0, 0, 0, 0⟩] }

/-- `update_player(gamepad)`: move, clamp, and maybe fire. -/
def update_player (gamepad : Nat) (w : World) : World :=
  let px := w.player.x
  let px := if gamepad &&& BUTTON_LEFT ≠ 0 then px - PLAYER_SPEED else px
  let px := if gamepad &&& BUTTON_RIGHT ≠ 0 then px + PLAYER_SPEED else px
  let px := if px < 0 then 0 else px
  let px := if px > 160 - 8 then 160 - 8 else px
  let w := { w with player := { w.player with x := px } }
  if gamepad &&& BUTTON_1 ≠ 0 ∧ w.player_bullet.active = false then
    { w with
      player_bullet := { x := w.player.x + 3, y := w.player.y, active := true }
      tones := w.tones ++ [⟨1000, 10, 50, TONE_PULSE1⟩] }
  else w

/-- `update_player_bullet()`. -/
def update_player_bullet (w : World) : World :=
  if w.player_bullet.active then
    let b := { w.player_bullet with y := w.player_bullet.y - BULLET_SPEED }
    let b := if b.y < 0 then { b with active := false } else b
    { w with player_bullet := b }
  else w

/-- The edge test of `update_aliens` for one alien. -/
def alien_at_edge (direction : Int) (a : Alien) : Bool :=
  a.alive && ((decide (a.x ≥ 160 - 8) && decide (direction > 0)) ||
              (decide (a.x ≤ 0) && decide (direction < 0)))

/-- `update_aliens()`: decrement the timer; on a step tick either drop the whole
formation (edge hit: invert direction, all y += 5) or shift it horizontally. -/
def update_aliens (w : World) : World :=
  let w := { w with alien_timer := w.alien_timer - 1 }
  if w.alien_timer ≤ 0 then
    let w := { w with alien_timer := w.current_alien_move_delay }
    let move_down := w.aliens.any (alien_at_edge w.alien_direction)
    if move_down then
      { w with
        alien_direction := w.alien_direction * -1
        aliens := w.aliens.map (fun a => { a with y := a.y + 5 }) }
    else
      { w with aliens := w.aliens.map (fun a => { a with x := a.x + w.alien_direction * 5 }) }
  else w

/-- `update_explosions()`. -/
def update_explosions (w : World) : World :=
  { w with
    explosions := w.explosions.map (fun e =>
      if e.active then
        let e := { e with life := e.life - 1 }
        if e.life ≤ 0 then { e with active := false } else e
      else e) }

/-- The bullet-vs-alien AABB test of `check_collisions`. -/
def bullet_hits (b : Bullet) (a : Alien) : Bool :=
  decide (b.x < a.x + 8) && decide (b.x + 2 > a.x) &&
  decide (b.y < a.y + 8) && decide (b.y + 4 > a.y)

/-- The scan loop of `check_collisions`: kill the first alive alien the bullet
overlaps and report it (the loop breaks there); `none` when no alien is hit. -/
def check_collisions_aux (b : Bullet) : List Alien → Option (List Alien × Alien)
  | [] => none
  | a :: rest =>
    if a.alive && bullet_hits b a then
      some ({ a with alive := false } :: rest, a)
    else
      match check_collisions_aux b rest with
      | none => none
      | some (rest', hit) => some (a :: rest', hit)

/-- `check_collisions()`. -/
def check_collisions (w : World) : World :=
  if w.player_bullet.active = false then w
  else
    match check_collisions_aux w.player_bullet w.aliens with
    | none => w
    | some (as', hit) =>
      { w with
        aliens := as'
        explosions := create_explosion hit.x hit.y w.explosions
        player_bullet := { w.player_bullet with active := false }
        score := w.score + 10
        aliens_left := w.aliens_left - 1
        tones := w.tones ++ [⟨200, 15, 80, TONE_NOISE⟩] }

/-- The state of `next_wave()` just before its `init_aliens()` call: wave
incremented, step delay recomputed, formation dimensions set. -/
def next_wave_pre (w : World) : World :=
  let w := { w with current_wave := w.current_wave + 1 }
  let d := 20 - w.current_wave * 3
  let d := if d < 5 then (4 : Int) else d
  let w := { w with current_alien_move_delay := d, alien_timer := d }
  { w with
    current_alien_cols := (ALIEN_COLS : Int)
    current_alien_rows :=
      let r := (w.current_wave + 1) / 2
      if r > (ALIEN_ROWS : Int) then (ALIEN_ROWS : Int) else r }

/-- `next_wave()`. -/
def next_wave (w : World) : World :=
  let w := { w with current_wave := w.current_wave + 1 }
  let d := 20 - w.current_wave * 3
  let d := if d < 5 then (4 : Int) else d
  let w := { w with current_alien_move_delay := d, alien_timer := d }
  let w := { w with
    current_alien_cols := (ALIEN_COLS : Int)
    current_alien_rows :=
      let r := (w.current_wave + 1) / 2
      if r > (ALIEN_ROWS : Int) then (ALIEN_ROWS : Int) else r }
  let w := init_aliens w
  { w with
    alien_direction := 1
    current_jingle_note_index := 0
    jingle_note_timer := 0
    playing_wave_jingle := true }

/-- The player-vs-alien AABB test of `check_player_collision`. -/
def player_hits (p : Player) (a : Alien) : Bool :=
  decide (p.x < a.x + 8) && decide (p.x + 8 > a.x) &&
  decide (p.y < a.y + 8) && decide (p.y + 8 > a.y)

/-- `check_player_collision()`: on the first alive overlapping alien, go to the
menu, emit the game-over tone, reinitialize the aliens (with the formation
dimensions as they are at that moment), and reset the session state; note the
`current_alien_rows = 3` write happens only after `init_aliens()` has run. -/
def check_player_collision (w : World) : World :=
  if w.aliens.any (fun a => a.alive && player_hits w.player a) then
    let w := { w with
      game_state := GAME_STATE_MENU
      tones := w.tones ++ [⟨50, 60, 100, TONE_TRIANGLE⟩] }
    let w := init_aliens w
    { w with
      player := { w.player with x := 76 }
      player_bullet := { w.player_bullet with active := false }
      score := 0
      alien_timer := 20
      alien_direction := 1
      current_wave := 1
      current_alien_rows := 3
      current_alien_cols := (ALIEN_COLS : Int) }
  else w

/-- The six `random_int` calls of one drawn explosion in `draw_explosions`. -/
def draw_explosion_jitter (seed : Nat) : Nat :=
  let r1 := random_int (-2) 2 seed
  let r2 := random_int (-2) 2 r1.2
  let r3 := random_int (-3) 3 r2.2
  let r4 := random_int (-3) 3 r3.2
  let r5 := random_int (-1) 1 r4.2
  let r6 := random_int (-1) 1 r5.2
  r6.2

/-- `draw_explosions()`: rendering consumes randomness for the jitter of each
active explosion; no other simulation state changes. -/
def draw_explosions (w : World) : World :=
  { w with
    random_seed := w.explosions.foldl
      (fun s e => if e.active then draw_explosion_jitter s else s) w.random_seed }

/-- `update_menu()`. -/
def update_menu (inp : Input) (w : World) : World :=
  if inp.gamepad &&& BUTTON_1 ≠ 0 ∨ inp.mouse &&& MOUSE_BUTTON_LEFT ≠ 0 then
    let w := { w with game_state := GAME_STATE_PLAYING }
    let w := init_aliens w
    { w with
      score := 0
      player := { w.player with x := 76 }
      player_bullet := { w.player_bullet with active := false } }
  else w

/-- `update()`: one frame.  The tone trace is cleared at frame entry so that
`(update inp w).tones` is exactly the tones emitted during this frame.
`draw_score` and `draw_wave` only render text and are omitted. -/
def update (inp : Input) (w : World) : World :=
  let w := { w with tones := [] }
  let w := draw_background_stars w
  if w.game_state = GAME_STATE_MENU then
    update_menu inp w
  else if w.game_state = GAME_STATE_PLAYING then
    let w := update_player inp.gamepad w
    let w := update_player_bullet w
    let w := update_aliens w
    let w := check_collisions w
    let w := check_player_collision w
    let w := play_wave_jingle w
    let w := update_explosions w
    let w := draw_explosions w
    if w.aliens_left ≤ 0 then next_wave w else w
  else w

/-- A whole play session: `start()` followed by one `update()` per input frame. -/
def run (inputs : List Input) : World :=
  inputs.foldl (fun w inp => update inp w) start_world

/-- The alive flag stored at slot `j` of an alien pool (`none` out of range). -/
def aliveAt (as : List Alien) (j : Nat) : Option Bool :=
  (as[j]?).map Alien.alive

/-- The row count `init_aliens` actually uses: the stored one clamped to
`ALIEN_ROWS`, as a `Nat` loop bound. -/
def clamped_rows (w : World) : Nat :=
  (if w.current_alien_rows > (ALIEN_ROWS : Int) then (ALIEN_ROWS : Int) else w.current_alien_rows).toNat

/-- The alien-count bookkeeping invariant: a full pool, the column count the
program always uses, and `aliens_left` agreeing with the number of alive slots. -/
def AlienInv (w : World) : Prop :=
  w.aliens.length = TOTAL_ALIENS ∧ w.current_alien_cols = 8 ∧
    w.aliens_left = countAlive w.aliens

/-- The player stays inside the screen band claimed by the spec. -/
def PlayerInv (w : World) : Prop :=
  0 ≤ w.player.x ∧ w.player.x ≤ 152 ∧ 0 ≤ w.player.y ∧ w.player.y ≤ 152

/-- The alive-alien-at-a-travel-edge condition that makes a formation step
descend instead of shifting. -/
def formation_edge_hit (w : World) : Prop :=
  ∃ a ∈ w.aliens, a.alive = true ∧
    ((a.x ≥ 152 ∧ w.alien_direction = 1) ∨ (a.x ≤ 0 ∧ w.alien_direction = -1))

/-- A small concrete world used to instantiate universally quantified theorems
(empty cosmetic pools keep kernel evaluation cheap). -/
def tiny_world : World where
  player := { x := 76, y := 140 }
  player_bullet := { x := 0, y := 0, active := false }
  aliens := []
  stars := []
  explosions := []
  game_state := GAME_STATE_PLAYING
  alien_direction := 1
  alien_timer := 20
  current_alien_move_delay := 20
  score := 0
  random_seed := 1
  aliens_left := 0
  current_wave := 1
  current_alien_rows := 1
  current_alien_cols := 8
  current_jingle_note_index := 0
  jingle_note_timer := 0
  playing_wave_jingle := false
  tones := []

/-- A world whose bullet was just fired from the default player position. -/
def bullet_world : World :=
  { tiny_world with player_bullet := { x := 79, y := 140, active := true } }

/-- A full 48-slot world with every alien dead. -/
def pool_world : World :=
  { tiny_world with aliens := List.replicate TOTAL_ALIENS { x := 0, y := 0, alive := false } }

/-- A one-row world in which alien slot 0 sits exactly on the player. -/
def collision_world : World :=
  { pool_world with
    aliens := (List.replicate TOTAL_ALIENS ({ x := 0, y := 0, alive := false } : Alien)).set 0
      { x := 76, y := 140, alive := true }
    aliens_left := 1
    current_alien_rows := 1 }

/-- A world one frame away from a formation step with an alive alien at the
right edge. -/
def edge_world : World :=
  { tiny_world with
    alien_timer := 1
    alien_direction := 1
    aliens := [{ x := 152, y := 20, alive := true }] }

/-! ### Helper lemmas about the array-write primitives -/

theorem length_modifyAt {α : Type} (f : α → α) (i : Nat) (as : List α) :
    (modifyAt f i as).length = as.length := by
  induction as generalizing i with
  | nil => cases i <;> rfl
  | cons a as ih =>
    cases i with
    | zero => rfl
    | succ n => simpa [modifyAt] using ih n

theorem getElem?_modifyAt {α : Type} (f : α → α) (i j : Nat) (as : List α) :
    (modifyAt f i as)[j]? = if i = j then (as[j]?).map f else as[j]? := by
  induction as generalizing i j with
  | nil => simp [modifyAt]
  | cons a as ih =>
    cases i with
    | zero => cases j <;> simp [modifyAt]
    | succ n =>
      cases j with
      | zero => simp [modifyAt]
      | succ m => simpa [modifyAt] using ih n m

theorem fill_row_succ (y c : Nat) (as : List Alien) :
    fill_row y (c + 1) as =
      (fill_row y c as).set (y * ALIEN_COLS + c)
        { x := 20 + (c : Int) * 12, y := 20 + (y : Int) * 12, alive := true } := by
  unfold fill_row
  rw [List.range_succ, List.foldl_append]
  rfl

theorem length_fill_row (y cols : Nat) (as : List Alien) :
    (fill_row y cols as).length = as.length := by
  induction cols with
  | zero => rfl
  | succ c ih => rw [fill_row_succ, List.length_set, ih]

theorem aliveAt_fill_row (y : Nat) (hy : y < 6) (as : List Alien) (h48 : as.length = 48) :
    ∀ cols, cols ≤ 8 → ∀ j,
      aliveAt (fill_row y cols as) j =
        if y * 8 ≤ j ∧ j < y * 8 + cols then some true else aliveAt as j := by
  intro cols
  induction cols with
  | zero =>
    intro _ j
    rw [if_neg (by omega)]
    rfl
  | succ c ih =>
    intro hc j
    have hlen : (fill_row y c as).length = 48 := by rw [length_fill_row, h48]
    have hidx : y * ALIEN_COLS + c = y * 8 + c := by norm_num [ALIEN_COLS]
    rw [fill_row_succ]
    unfold aliveAt
    rw [List.getElem?_set, hidx]
    by_cases hij : y * 8 + c = j
    · rw [if_pos hij, if_pos (by omega), if_pos (by omega)]
      rfl
    · rw [if_neg hij]
      have hrec := ih (by omega) j
      unfold aliveAt at hrec
      rw [hrec]
      by_cases hin : y * 8 ≤ j ∧ j < y * 8 + c
      · rw [if_pos hin, if_pos (by omega)]
      · rw [if_neg hin, if_neg (by omega)]

theorem fill_rows_succ (r cols : Nat) (as : List Alien) :
    fill_rows (r + 1) cols as = fill_row r cols (fill_rows r cols as) := by
  unfold fill_rows
  rw [List.range_succ, List.foldl_append]
  rfl

theorem length_fill_rows (rows cols : Nat) (as : List Alien) :
    (fill_rows rows cols as).length = as.length := by
  induction rows with
  | zero => rfl
  | succ r ih => rw [fill_rows_succ, length_fill_row, ih]

theorem aliveAt_fill_rows (as : List Alien) (h48 : as.length = 48) :
    ∀ rows, rows ≤ 6 → ∀ j,
      aliveAt (fill_rows rows 8 as) j =
        if j < rows * 8 then some true else aliveAt as j := by
  intro rows
  induction rows with
  | zero =>
    intro _ j
    rw [if_neg (by omega)]
    rfl
  | succ r ih =>
    intro hr j
    have hlen : (fill_rows r 8 as).length = 48 := by rw [length_fill_rows, h48]
    rw [fill_rows_succ,
      aliveAt_fill_row r (by omega) (fill_rows r 8 as) hlen 8 (by omega) j,
      ih (by omega) j]
    by_cases h1 : r * 8 ≤ j ∧ j < r * 8 + 8
    · rw [if_pos h1, if_pos (by omega)]
    · by_cases h2 : j < r * 8
      · rw [if_neg h1, if_pos h2, if_pos (by omega)]
      · rw [if_neg h1, if_neg h2, if_neg (by omega)]

theorem init_inner_eq (y cols : Nat) :
    ∀ (l : List Alien) (k : Int),
      (List.range cols).foldl
        (fun q x =>
          (q.1.set (y * ALIEN_COLS + x)
            { x := 20 + (x : Int) * 12, y := 20 + (y : Int) * 12, alive := true },
           q.2 + 1))
        (l, k)
      = (fill_row y cols l, k + cols) := by
  induction cols with
  | zero =>
    intro l k
    simp [fill_row]
  | succ c ih =>
    intro l k
    rw [List.range_succ, List.foldl_append, ih, fill_row_succ]
    dsimp only [List.foldl]
    congr 1
    push_cast
    ring

theorem init_loop_succ (r cols : Nat) (as : List Alien) :
    init_loop (r + 1) cols as =
      (List.range cols).foldl
        (fun q x =>
          (q.1.set (r * ALIEN_COLS + x)
            { x := 20 + (x : Int) * 12, y := 20 + (r : Int) * 12, alive := true },
           q.2 + 1))
        (init_loop r cols as) := by
  unfold init_loop
  rw [List.range_succ, List.foldl_append]
  rfl

theorem init_loop_eq : ∀ (rows cols : Nat) (as : List Alien),
    init_loop rows cols as = (fill_rows rows cols as, ((rows * cols : Nat) : Int)) := by
  intro rows
  induction rows with
  | zero =>
    intro cols as
    simp [init_loop, fill_rows]
  | succ r ih =>
    intro cols as
    rw [init_loop_succ, ih cols as]
    have := init_inner_eq r cols (fill_rows r cols as) ((r * cols : Nat) : Int)
    rw [this, fill_rows_succ]
    congr 1
    push_cast
    ring

theorem mark_dead_aux_succ (n m : Nat) (as : List Alien) :
    mark_dead_aux n (m + 1) as =
      (if n ≤ m then modifyAt (fun a => { a with alive := false }) m (mark_dead_aux n m as)
       else mark_dead_aux n m as) := by
  unfold mark_dead_aux
  rw [List.range_succ, List.foldl_append]
  rfl

theorem length_mark_dead_aux (n m : Nat) (as : List Alien) :
    (mark_dead_aux n m as).length = as.length := by
  induction m with
  | zero => rfl
  | succ c ih =>
    rw [mark_dead_aux_succ]
    by_cases h : n ≤ c
    · rw [if_pos h, length_modifyAt, ih]
    · rw [if_neg h, ih]

theorem aliveAt_mark_dead_aux (n : Nat) (as : List Alien) :
    ∀ m, ∀ j, j < as.length →
      aliveAt (mark_dead_aux n m as) j =
        if n ≤ j ∧ j < m then some false else aliveAt as j := by
  intro m
  induction m with
  | zero =>
    intro j _
    rw [if_neg (by omega)]
    rfl
  | succ c ih =>
    intro j hj
    rw [mark_dead_aux_succ]
    by_cases h : n ≤ c
    · rw [if_pos h]
      unfold aliveAt
      rw [getElem?_modifyAt]
      by_cases hcj : c = j
      · subst hcj
        have hlen : c < (mark_dead_aux n c as).length := by rw [length_mark_dead_aux]; exact hj
        rw [List.getElem?_eq_getElem hlen, if_pos (⟨h, by omega⟩ : n ≤ c ∧ c < c + 1),
          if_pos (rfl : c = c)]
        rfl
      · rw [if_neg hcj]
        have hrec := ih j hj
        unfold aliveAt at hrec
        rw [hrec]
        by_cases hin : n ≤ j ∧ j < c
        · rw [if_pos hin, if_pos (by omega)]
        · rw [if_neg hin, if_neg (by omega)]
    · rw [if_neg h]
      have hrec := ih j hj
      rw [hrec]
      by_cases hin : n ≤ j ∧ j < c
      · rw [if_pos hin, if_pos (by omega)]
      · rw [if_neg hin, if_neg (by omega)]

theorem clamped_rows_le (w : World) : clamped_rows w ≤ 6 := by
  unfold clamped_rows ALIEN_ROWS
  split <;> omega

theorem init_aliens_eq (w : World) (hc : w.current_alien_cols = 8) :
    init_aliens w =
      { w with
        current_alien_rows :=
          if w.current_alien_rows > (ALIEN_ROWS : Int) then (ALIEN_ROWS : Int)
          else w.current_alien_rows
        current_alien_cols := 8
        aliens := mark_dead_from (clamped_rows w * 8) (fill_rows (clamped_rows w) 8 w.aliens)
        aliens_left := ((clamped_rows w * 8 : Nat) : Int) } := by
  have h8 : (if (8 : Int) > (ALIEN_COLS : Int) then (ALIEN_COLS : Int) else (8 : Int)) = 8 := by
    norm_num [ALIEN_COLS]
  simp only [init_aliens, hc, h8]
  have htn : (8 : Int).toNat = 8 := rfl
  rw [htn, init_loop_eq]
  have hrows : (if w.current_alien_rows > (ALIEN_ROWS : Int) then (ALIEN_ROWS : Int)
      else w.current_alien_rows).toNat = clamped_rows w := rfl
  rw [hrows]
  dsimp only
  rw [Int.toNat_natCast]

theorem length_mark_dead_from (n : Nat) (as : List Alien) :
    (mark_dead_from n as).length = as.length :=
  length_mark_dead_aux n TOTAL_ALIENS as

theorem aliveAt_mark_dead_from (n : Nat) (as : List Alien) (j : Nat) (hj : j < as.length) :
    aliveAt (mark_dead_from n as) j =
      if n ≤ j ∧ j < 48 then some false else aliveAt as j := by
  have h : TOTAL_ALIENS = 48 := rfl
  unfold mark_dead_from
  rw [aliveAt_mark_dead_aux n as TOTAL_ALIENS j hj, h]

theorem aliveAt_init_aliens (w : World) (hc : w.current_alien_cols = 8)
    (h48 : w.aliens.length = 48) :
    ∀ j, j < 48 → aliveAt (init_aliens w).aliens j = some (decide (j < clamped_rows w * 8)) := by
  intro j hj
  rw [init_aliens_eq w hc]
  dsimp only
  have hfl : (fill_rows (clamped_rows w) 8 w.aliens).length = 48 := by
    rw [length_fill_rows, h48]
  rw [aliveAt_mark_dead_from _ _ j (by omega),
    aliveAt_fill_rows w.aliens h48 (clamped_rows w) (clamped_rows_le w) j]
  by_cases hlt : j < clamped_rows w * 8
  · rw [if_neg (by omega), if_pos hlt]
    simp [hlt]
  · rw [if_pos (by omega)]
    simp [hlt]

theorem countAlive_of_pattern (as : List Alien) (n : Nat) (h48 : as.length = 48) (hn : n ≤ 48)
    (h : ∀ j, j < 48 → aliveAt as j = some (decide (j < n))) :
    countAlive as = n := by
  have hmap : as.map Alien.alive = (List.range 48).map (fun j => decide (j < n)) := by
    apply List.ext_getElem?
    intro i
    rw [List.getElem?_map, List.getElem?_map]
    by_cases hi : i < 48
    · rw [List.getElem?_range hi]
      have hp := h i hi
      unfold aliveAt at hp
      rw [hp]
      rfl
    · rw [List.getElem?_eq_none (by rw [h48]; omega),
        List.getElem?_eq_none (by simp; omega)]
      rfl
  have hcp : countAlive as = ((List.range 48).map (fun j => decide (j < n))).countP id := by
    rw [countAlive, ← hmap, List.countP_map]
    rfl
  rw [hcp]
  interval_cases n <;> decide

theorem AlienInv_init_aliens (w : World) (hc : w.current_alien_cols = 8)
    (h48 : w.aliens.length = 48) : AlienInv (init_aliens w) := by
  have hlen : (init_aliens w).aliens.length = 48 := by
    rw [init_aliens_eq w hc]
    dsimp only
    rw [length_mark_dead_from, length_fill_rows, h48]
  refine ⟨hlen, ?_, ?_⟩
  · rw [init_aliens_eq w hc]
  · have hcount : countAlive (init_aliens w).aliens = clamped_rows w * 8 :=
      countAlive_of_pattern _ _ hlen (by have := clamped_rows_le w; omega)
        (aliveAt_init_aliens w hc h48)
    rw [hcount, init_aliens_eq w hc]

theorem check_collisions_aux_spec (b : Bullet) :
    ∀ (as as' : List Alien) (hit : Alien), check_collisions_aux b as = some (as', hit) →
      countAlive as' + 1 = countAlive as ∧ as'.length = as.length := by
  intro as
  induction as with
  | nil =>
    intro as' hit h
    simp [check_collisions_aux] at h
  | cons a rest ih =>
    intro as' hit h
    unfold check_collisions_aux at h
    by_cases hcond : (a.alive && bullet_hits b a) = true
    · rw [if_pos hcond] at h
      have halive : a.alive = true := by
        simp only [Bool.and_eq_true] at hcond
        exact hcond.1
      cases h
      constructor
      · simp [countAlive, List.countP_cons, halive]
      · simp
    · rw [if_neg hcond] at h
      cases hrec : check_collisions_aux b rest with
      | none =>
        rw [hrec] at h
        exact absurd h (by simp)
      | some p =>
        obtain ⟨rest', hit'⟩ := p
        rw [hrec] at h
        cases h
        have hr := ih _ _ hrec
        constructor
        · simp only [countAlive, List.countP_cons] at *
          omega
        · simp [hr.2]

/-! ### Which state fields each pipeline stage leaves untouched -/

theorem AlienInv_congr {w w' : World} (ha : w'.aliens = w.aliens)
    (hl : w'.aliens_left = w.aliens_left) (hc : w'.current_alien_cols = w.current_alien_cols)
    (h : AlienInv w) : AlienInv w' := by
  unfold AlienInv at *
  rw [ha, hl, hc]
  exact h

theorem draw_background_stars_fields (w : World) :
    (draw_background_stars w).player = w.player ∧
    (draw_background_stars w).aliens = w.aliens ∧
    (draw_background_stars w).aliens_left = w.aliens_left ∧
    (draw_background_stars w).current_alien_cols = w.current_alien_cols ∧
    (draw_background_stars w).current_alien_move_delay = w.current_alien_move_delay ∧
    (draw_background_stars w).game_state = w.game_state :=
  ⟨rfl, rfl, rfl, rfl, rfl, rfl⟩

theorem update_player_fields (g : Nat) (w : World) :
    (update_player g w).player.y = w.player.y ∧
    (update_player g w).aliens = w.aliens ∧
    (update_player g w).aliens_left = w.aliens_left ∧
    (update_player g w).current_alien_cols = w.current_alien_cols ∧
    (update_player g w).current_alien_move_delay = w.current_alien_move_delay := by
  unfold update_player
  dsimp only
  split <;> exact ⟨rfl, rfl, rfl, rfl, rfl⟩

theorem update_player_x_bounds (g : Nat) (w : World) :
    0 ≤ (update_player g w).player.x ∧ (update_player g w).player.x ≤ 152 := by
  unfold update_player
  dsimp only
  split <;> constructor <;> dsimp only <;> split <;> split <;> omega

theorem update_player_bullet_fields (w : World) :
    (update_player_bullet w).player = w.player ∧
    (update_player_bullet w).aliens = w.aliens ∧
    (update_player_bullet w).aliens_left = w.aliens_left ∧
    (update_player_bullet w).current_alien_cols = w.current_alien_cols ∧
    (update_player_bullet w).current_alien_move_delay = w.current_alien_move_delay := by
  unfold update_player_bullet
  split <;> exact ⟨rfl, rfl, rfl, rfl, rfl⟩

theorem update_aliens_fields (w : World) :
    (update_aliens w).player = w.player ∧
    countAlive (update_aliens w).aliens = countAlive w.aliens ∧
    (update_aliens w).aliens.length = w.aliens.length ∧
    (update_aliens w).aliens_left = w.aliens_left ∧
    (update_aliens w).current_alien_cols = w.current_alien_cols ∧
    (update_aliens w).current_alien_move_delay = w.current_alien_move_delay := by
  unfold update_aliens
  dsimp only
  split
  · split <;>
      exact ⟨rfl, by simp [countAlive, List.countP_map]; rfl, by simp, rfl, rfl, rfl⟩
  · exact ⟨rfl, rfl, rfl, rfl, rfl, rfl⟩

theorem check_collisions_fields (w : World) :
    (check_collisions w).player = w.player ∧
    (check_collisions w).current_alien_cols = w.current_alien_cols ∧
    (check_collisions w).current_alien_move_delay = w.current_alien_move_delay := by
  unfold check_collisions
  split
  · exact ⟨rfl, rfl, rfl⟩
  · cases haux : check_collisions_aux w.player_bullet w.aliens with
    | none => exact ⟨rfl, rfl, rfl⟩
    | some p =>
      obtain ⟨as', hit⟩ := p
      exact ⟨rfl, rfl, rfl⟩

theorem AlienInv_check_collisions (w : World) (h : AlienInv w) :
    AlienInv (check_collisions w) := by
  unfold check_collisions
  split
  · exact h
  · cases haux : check_collisions_aux w.player_bullet w.aliens with
    | none => exact h
    | some p =>
      obtain ⟨as', hit⟩ := p
      obtain ⟨hlen, hcols, hleft⟩ := h
      have hs := check_collisions_aux_spec w.player_bullet w.aliens as' hit haux
      refine ⟨?_, hcols, ?_⟩
      · show as'.length = TOTAL_ALIENS
        rw [hs.2, hlen]
      · show w.aliens_left - 1 = (countAlive as' : Int)
        have h1 := hs.1
        omega

theorem play_wave_jingle_fields (w : World) :
    (play_wave_jingle w).player = w.player ∧
    (play_wave_jingle w).aliens = w.aliens ∧
    (play_wave_jingle w).aliens_left = w.aliens_left ∧
    (play_wave_jingle w).current_alien_cols = w.current_alien_cols ∧
    (play_wave_jingle w).current_alien_move_delay = w.current_alien_move_delay := by
  unfold play_wave_jingle
  dsimp only
  repeat' split
  all_goals exact ⟨rfl, rfl, rfl, rfl, rfl⟩

theorem update_explosions_fields (w : World) :
    (update_explosions w).player = w.player ∧
    (update_explosions w).aliens = w.aliens ∧
    (update_explosions w).aliens_left = w.aliens_left ∧
    (update_explosions w).current_alien_cols = w.current_alien_cols ∧
    (update_explosions w).current_alien_move_delay = w.current_alien_move_delay :=
  ⟨rfl, rfl, rfl, rfl, rfl⟩

theorem draw_explosions_fields (w : World) :
    (draw_explosions w).player = w.player ∧
    (draw_explosions w).aliens = w.aliens ∧
    (draw_explosions w).aliens_left = w.aliens_left ∧
    (draw_explosions w).current_alien_cols = w.current_alien_cols ∧
    (draw_explosions w).current_alien_move_delay = w.current_alien_move_delay :=
  ⟨rfl, rfl, rfl, rfl, rfl⟩

theorem check_player_collision_fields (w : World) :
    (check_player_collision w).player.y = w.player.y ∧
    (check_player_collision w).current_alien_move_delay = w.current_alien_move_delay := by
  unfold check_player_collision
  split <;> exact ⟨rfl, rfl⟩

theorem init_aliens_untouched (w : World) :
    (init_aliens w).player = w.player ∧
    (init_aliens w).current_alien_move_delay = w.current_alien_move_delay ∧
    (init_aliens w).game_state = w.game_state ∧
    (init_aliens w).alien_timer = w.alien_timer ∧
    (init_aliens w).tones = w.tones ∧
    (init_aliens w).current_wave = w.current_wave :=
  ⟨rfl, rfl, rfl, rfl, rfl, rfl⟩

theorem next_wave_eq (w : World) :
    next_wave w =
      { init_aliens (next_wave_pre w) with
        alien_direction := 1
        current_jingle_note_index := 0
        jingle_note_timer := 0
        playing_wave_jingle := true } :=
  rfl

theorem AlienInv_check_player_collision (w : World) (h : AlienInv w) :
    AlienInv (check_player_collision w) := by
  unfold check_player_collision
  split
  · obtain ⟨hlen, hcols, hleft⟩ := h
    have h1 := AlienInv_init_aliens
      { w with
        game_state := GAME_STATE_MENU
        tones := w.tones ++ [⟨50, 60, 100, TONE_TRIANGLE⟩] }
      hcols hlen
    exact ⟨h1.1, by norm_num [ALIEN_COLS], h1.2.2⟩
  · exact h

theorem next_wave_fields (w : World) :
    (next_wave w).player = w.player ∧
    4 ≤ (next_wave w).current_alien_move_delay ∧
    (next_wave w).current_wave = w.current_wave + 1 := by
  rw [next_wave_eq]
  refine ⟨?_, ?_, ?_⟩
  · show (init_aliens (next_wave_pre w)).player = w.player
    rw [(init_aliens_untouched _).1]
    rfl
  · show 4 ≤ (init_aliens (next_wave_pre w)).current_alien_move_delay
    rw [(init_aliens_untouched _).2.1]
    show 4 ≤ (next_wave_pre w).current_alien_move_delay
    unfold next_wave_pre
    dsimp only
    split <;> omega
  · show (init_aliens (next_wave_pre w)).current_wave = w.current_wave + 1
    rw [(init_aliens_untouched _).2.2.2.2.2]
    rfl

theorem AlienInv_next_wave (w : World) (h : AlienInv w) : AlienInv (next_wave w) := by
  obtain ⟨hlen, hcols, hleft⟩ := h
  rw [next_wave_eq]
  have h1 := AlienInv_init_aliens (next_wave_pre w) rfl hlen
  exact ⟨h1.1, h1.2.1, h1.2.2⟩

theorem update_menu_fields (inp : Input) (w : World) :
    (update_menu inp w).player.y = w.player.y ∧
    (update_menu inp w).current_alien_move_delay = w.current_alien_move_delay := by
  unfold update_menu
  split <;> exact ⟨rfl, rfl⟩

theorem AlienInv_update_menu (inp : Input) (w : World) (h : AlienInv w) :
    AlienInv (update_menu inp w) := by
  obtain ⟨hlen, hcols, hleft⟩ := h
  unfold update_menu
  split
  · have h1 := AlienInv_init_aliens { w with game_state := GAME_STATE_PLAYING } hcols hlen
    exact ⟨h1.1, h1.2.1, h1.2.2⟩
  · exact ⟨hlen, hcols, hleft⟩

/-! ### Frame-level preservation of the invariants -/

theorem AlienInv_clear_tones (w : World) (h : AlienInv w) : AlienInv { w with tones := [] } :=
  h

theorem AlienInv_draw_background_stars (w : World) (h : AlienInv w) :
    AlienInv (draw_background_stars w) :=
  AlienInv_congr (draw_background_stars_fields w).2.1 (draw_background_stars_fields w).2.2.1
    (draw_background_stars_fields w).2.2.2.1 h

theorem AlienInv_update_player (g : Nat) (w : World) (h : AlienInv w) :
    AlienInv (update_player g w) :=
  AlienInv_congr (update_player_fields g w).2.1 (update_player_fields g w).2.2.1
    (update_player_fields g w).2.2.2.1 h

theorem AlienInv_update_player_bullet (w : World) (h : AlienInv w) :
    AlienInv (update_player_bullet w) :=
  AlienInv_congr (update_player_bullet_fields w).2.1 (update_player_bullet_fields w).2.2.1
    (update_player_bullet_fields w).2.2.2.1 h

theorem AlienInv_update_aliens (w : World) (h : AlienInv w) : AlienInv (update_aliens w) := by
  obtain ⟨hlen, hcols, hleft⟩ := h
  obtain ⟨-, hcnt, hln, hlft, hcls, -⟩ := update_aliens_fields w
  refine ⟨?_, ?_, ?_⟩
  · rw [hln]
    exact hlen
  · rw [hcls]
    exact hcols
  · rw [hlft, hcnt]
    exact hleft

theorem AlienInv_play_wave_jingle (w : World) (h : AlienInv w) :
    AlienInv (play_wave_jingle w) :=
  AlienInv_congr (play_wave_jingle_fields w).2.1 (play_wave_jingle_fields w).2.2.1
    (play_wave_jingle_fields w).2.2.2.1 h

theorem AlienInv_update_explosions (w : World) (h : AlienInv w) :
    AlienInv (update_explosions w) :=
  AlienInv_congr (update_explosions_fields w).2.1 (update_explosions_fields w).2.2.1
    (update_explosions_fields w).2.2.2.1 h

theorem AlienInv_draw_explosions (w : World) (h : AlienInv w) :
    AlienInv (draw_explosions w) :=
  AlienInv_congr (draw_explosions_fields w).2.1 (draw_explosions_fields w).2.2.1
    (draw_explosions_fields w).2.2.2.1 h

theorem AlienInv_update (inp : Input) (w : World) (h : AlienInv w) : AlienInv (update inp w) := by
  unfold update
  dsimp only
  split
  · exact AlienInv_update_menu _ _ (AlienInv_draw_background_stars _ (AlienInv_clear_tones _ h))
  · split
    · split
      · exact AlienInv_next_wave _ (AlienInv_draw_explosions _ (AlienInv_update_explosions _
          (AlienInv_play_wave_jingle _ (AlienInv_check_player_collision _
          (AlienInv_check_collisions _ (AlienInv_update_aliens _ (AlienInv_update_player_bullet _
          (AlienInv_update_player _ _ (AlienInv_draw_background_stars _
          (AlienInv_clear_tones _ h))))))))))
      · exact AlienInv_draw_explosions _ (AlienInv_update_explosions _
          (AlienInv_play_wave_jingle _ (AlienInv_check_player_collision _
          (AlienInv_check_collisions _ (AlienInv_update_aliens _ (AlienInv_update_player_bullet _
          (AlienInv_update_player _ _ (AlienInv_draw_background_stars _
          (AlienInv_clear_tones _ h)))))))))
    · exact AlienInv_draw_background_stars _ (AlienInv_clear_tones _ h)

theorem PlayerInv_congr {w w' : World} (hp : w'.player = w.player) (h : PlayerInv w) :
    PlayerInv w' := by
  unfold PlayerInv at *
  rw [hp]
  exact h

theorem PlayerInv_update_player (g : Nat) (w : World) (h : PlayerInv w) :
    PlayerInv (update_player g w) :=
  ⟨(update_player_x_bounds g w).1, (update_player_x_bounds g w).2,
   by rw [(update_player_fields g w).1]; exact h.2.2.1,
   by rw [(update_player_fields g w).1]; exact h.2.2.2⟩

theorem PlayerInv_check_player_collision (w : World) (h : PlayerInv w) :
    PlayerInv (check_player_collision w) := by
  unfold check_player_collision
  split
  · exact ⟨by norm_num, by norm_num, h.2.2.1, h.2.2.2⟩
  · exact h

theorem PlayerInv_update_menu (inp : Input) (w : World) (h : PlayerInv w) :
    PlayerInv (update_menu inp w) := by
  unfold update_menu
  split
  · exact ⟨by norm_num, by norm_num, h.2.2.1, h.2.2.2⟩
  · exact h

theorem PlayerInv_update (inp : Input) (w : World) (h : PlayerInv w) :
    PlayerInv (update inp w) := by
  unfold update
  dsimp only
  split
  · exact PlayerInv_update_menu _ _
      (PlayerInv_congr (draw_background_stars_fields _).1 (h : PlayerInv _))
  · split
    · split
      · exact PlayerInv_congr (next_wave_fields _).1 (PlayerInv_congr (draw_explosions_fields _).1
          (PlayerInv_congr (update_explosions_fields _).1
          (PlayerInv_congr (play_wave_jingle_fields _).1 (PlayerInv_check_player_collision _
          (PlayerInv_congr (check_collisions_fields _).1
          (PlayerInv_congr (update_aliens_fields _).1 (PlayerInv_congr
          (update_player_bullet_fields _).1 (PlayerInv_update_player _ _
          (PlayerInv_congr (draw_background_stars_fields _).1 (h : PlayerInv _))))))))))
      · exact PlayerInv_congr (draw_explosions_fields _).1
          (PlayerInv_congr (update_explosions_fields _).1
          (PlayerInv_congr (play_wave_jingle_fields _).1 (PlayerInv_check_player_collision _
          (PlayerInv_congr (check_collisions_fields _).1
          (PlayerInv_congr (update_aliens_fields _).1 (PlayerInv_congr
          (update_player_bullet_fields _).1 (PlayerInv_update_player _ _
          (PlayerInv_congr (draw_background_stars_fields _).1 (h : PlayerInv _)))))))))
    · exact PlayerInv_congr (draw_background_stars_fields _).1 (h : PlayerInv _)

theorem player_y_update (inp : Input) (w : World) : (update inp w).player.y = w.player.y := by
  unfold update
  dsimp only
  split
  · rw [(update_menu_fields _ _).1, (draw_background_stars_fields _).1]
  · split
    · split
      · rw [(next_wave_fields _).1, (draw_explosions_fields _).1, (update_explosions_fields _).1,
          (play_wave_jingle_fields _).1, (check_player_collision_fields _).1,
          (check_collisions_fields _).1, (update_aliens_fields _).1,
          (update_player_bullet_fields _).1, (update_player_fields _ _).1,
          (draw_background_stars_fields _).1]
      · rw [(draw_explosions_fields _).1, (update_explosions_fields _).1,
          (play_wave_jingle_fields _).1, (check_player_collision_fields _).1,
          (check_collisions_fields _).1, (update_aliens_fields _).1,
          (update_player_bullet_fields _).1, (update_player_fields _ _).1,
          (draw_background_stars_fields _).1]
    · rw [(draw_background_stars_fields _).1]

theorem delay_update (inp : Input) (w : World) (h : 4 ≤ w.current_alien_move_delay) :
    4 ≤ (update inp w).current_alien_move_delay := by
  unfold update
  dsimp only
  split
  · rw [(update_menu_fields _ _).2, (draw_background_stars_fields _).2.2.2.2.1]
    exact h
  · split
    · split
      · exact (next_wave_fields _).2.1
      · rw [(draw_explosions_fields _).2.2.2.2, (update_explosions_fields _).2.2.2.2,
          (play_wave_jingle_fields _).2.2.2.2, (check_player_collision_fields _).2,
          (check_collisions_fields _).2.2, (update_aliens_fields _).2.2.2.2.2,
          (update_player_bullet_fields _).2.2.2.2, (update_player_fields _ _).2.2.2.2,
          (draw_background_stars_fields _).2.2.2.2.1]
        exact h
    · rw [(draw_background_stars_fields _).2.2.2.2.1]
      exact h

/-! ### RNG, starfield and start-state facts -/

theorem random_int_bounds (mn mx : Int) (seed : Nat) (h : mn ≤ mx) :
    mn ≤ (random_int mn mx seed).1 ∧ (random_int mn mx seed).1 ≤ mx := by
  unfold random_int
  dsimp only
  have hr : ((mx - mn + 1).toNat : Int) = mx - mn + 1 := Int.toNat_of_nonneg (by omega)
  have hpos : 0 < (mx - mn + 1).toNat := by omega
  have hmod : lcg_next seed % (mx - mn + 1).toNat < (mx - mn + 1).toNat :=
    Nat.mod_lt _ hpos
  omega

theorem rand_iter_eq (mn mx : Int) (seed : Nat) : ∀ n, rand_iter mn mx seed n = lcg_next^[n] seed := by
  intro n
  induction n with
  | zero => rfl
  | succ k ih =>
    show (random_int mn mx (rand_iter mn mx seed k)).2 = lcg_next^[k + 1] seed
    rw [ih, Function.iterate_succ_apply']
    rfl

theorem AlienInv_start_world : AlienInv start_world := by
  unfold AlienInv
  decide

theorem PlayerInv_start_world : PlayerInv start_world := by
  unfold PlayerInv
  decide

theorem run_preserves {P : World → Prop}
    (hstep : ∀ inp w, P w → P (update inp w)) :
    ∀ (inputs : List Input) (w : World), P w → P (inputs.foldl (fun w inp => update inp w) w) := by
  intro inputs
  induction inputs with
  | nil => intro w h; exact h
  | cons i l ih =>
    intro w h
    exact ih _ (hstep i w h)

/-! ### Targeted helpers for the individual claims -/

theorem edge_hit_iff (w : World) (h : w.alien_direction = 1 ∨ w.alien_direction = -1) :
    (w.aliens.any (alien_at_edge w.alien_direction) = true) ↔ formation_edge_hit w := by
  rw [List.any_eq_true]
  unfold formation_edge_hit
  constructor
  · rintro ⟨a, ha, hcond⟩
    unfold alien_at_edge at hcond
    simp only [Bool.and_eq_true, Bool.or_eq_true, decide_eq_true_eq] at hcond
    exact ⟨a, ha, hcond.1, by rcases hcond with ⟨-, hc⟩; omega⟩
  · rintro ⟨a, ha, h1, h2⟩
    refine ⟨a, ha, ?_⟩
    unfold alien_at_edge
    simp only [Bool.and_eq_true, Bool.or_eq_true, decide_eq_true_eq]
    exact ⟨h1, by omega⟩

theorem player_overlap_any (w : World)
    (h : ∃ a ∈ w.aliens, a.alive = true ∧ player_hits w.player a = true) :
    (w.aliens.any fun a => a.alive && player_hits w.player a) = true := by
  rw [List.any_eq_true]
  obtain ⟨a, ha, h1, h2⟩ := h
  exact ⟨a, ha, by rw [Bool.and_eq_true]; exact ⟨h1, h2⟩⟩

theorem update_player_fire (g : Nat) (w : World) (hg : g &&& BUTTON_1 ≠ 0)
    (hb : w.player_bullet.active = false) :
    (update_player g w).player_bullet.active = true ∧
    (update_player g w).player_bullet.x = (update_player g w).player.x + 3 ∧
    (update_player g w).player_bullet.y = w.player.y ∧
    (⟨1000, 10, 50, TONE_PULSE1⟩ : ToneEvent) ∈ (update_player g w).tones := by
  unfold update_player
  dsimp only
  rw [if_pos ⟨hg, hb⟩]
  refine ⟨rfl, rfl, rfl, ?_⟩
  simp

theorem update_player_bullet_step (w : World) (h : w.player_bullet.active = true) :
    (update_player_bullet w).player_bullet.y = w.player_bullet.y - 4 ∧
    (update_player_bullet w).player_bullet.active = decide (0 ≤ w.player_bullet.y - 4) := by
  unfold update_player_bullet
  rw [if_pos h]
  dsimp only
  by_cases hy : w.player_bullet.y - (4 : Int) < 0
  · have hc : w.player_bullet.y - BULLET_SPEED < 0 := by unfold BULLET_SPEED; omega
    rw [if_pos hc]
    refine ⟨rfl, ?_⟩
    show false = decide (0 ≤ w.player_bullet.y - 4)
    rw [eq_comm, decide_eq_false_iff_not]
    omega
  · have hc : ¬w.player_bullet.y - BULLET_SPEED < 0 := by unfold BULLET_SPEED; omega
    rw [if_neg hc]
    refine ⟨rfl, ?_⟩
    show w.player_bullet.active = decide (0 ≤ w.player_bullet.y - 4)
    rw [h, eq_comm, decide_eq_true_eq]
    omega

theorem create_explosion_all_active (x y : Int) :
    ∀ es : List Explosion, (∀ e ∈ es, e.active = true) → create_explosion x y es = es := by
  intro es
  induction es with
  | nil => intro _; rfl
  | cons e rest ih =>
    intro h
    unfold create_explosion
    rw [if_neg (by simp [h e (by simp)]), ih (fun e' he' => h e' (by simp [he']))]

theorem create_explosion_first_inactive (x y : Int) :
    ∀ es : List Explosion, (∃ e ∈ es, e.active = false) →
      create_explosion x y es =
        es.set (es.findIdx fun e => !e.active)
          { x := x, y := y, life := EXPLOSION_DURATION, active := true } := by
  intro es
  induction es with
  | nil => rintro ⟨e, he, -⟩; cases he
  | cons e rest ih =>
    rintro ⟨e', he', hact⟩
    unfold create_explosion
    by_cases h : e.active = false
    · rw [if_pos h, List.findIdx_cons]
      simp [h]
    · rw [if_neg h]
      have hae : e.active = true := by
        cases hq : e.active
        · exact absurd hq h
        · rfl
      have hmem : ∃ a ∈ rest, a.active = false := by
        rcases List.mem_cons.mp he' with h1 | h1
        · subst h1; exact absurd hact h
        · exact ⟨e', h1, hact⟩
      rw [ih hmem, List.findIdx_cons, hae]
      rfl

theorem create_explosion_length (x y : Int) :
    ∀ es : List Explosion, (create_explosion x y es).length = es.length := by
  intro es
  induction es with
  | nil => rfl
  | cons e rest ih =>
    unfold create_explosion
    split
    · simp
    · simp [ih]

/-! ### The claims -/

/-- C1 counterexample: the frozen claim says a player collision reinitializes
the aliens with `current_alien_rows = 3` (which would leave 3 × 8 = 24 alive
aliens).  In the code `init_aliens()` runs *before* `current_alien_rows = 3`
is assigned, so from a one-row wave the reset leaves only 8 alive aliens,
even though `current_alien_rows` ends up 3. -/
theorem player_collision_reinit_rows_counterexample :
    countAlive (check_player_collision collision_world).aliens = 8 ∧
    (check_player_collision collision_world).current_alien_rows = 3 ∧
    countAlive (init_aliens { collision_world with current_alien_rows := 3 }).aliens = 24 := by
  decide

/-- C1 (amended): when an alive alien's 8x8 box overlaps the player's 8x8 box
in `check_player_collision`, the game resets: the aliens are reinitialized
using the pre-collision formation dimensions (`current_alien_rows` is set to 3
only afterwards, affecting the next reinitialization), `player.x` is reset to
76, the bullet is deactivated, score becomes 0, `current_wave` becomes 1,
`alien_direction` becomes +1, `alien_timer` becomes 20, a low 50 Hz triangle
tone is emitted, and `game_state` becomes Menu. -/
theorem player_collision_resets_game (w : World)
    (h : ∃ a ∈ w.aliens, a.alive = true ∧ player_hits w.player a = true) :
    (check_player_collision w).game_state = GAME_STATE_MENU ∧
    (check_player_collision w).aliens = (init_aliens w).aliens ∧
    (check_player_collision w).aliens_left = (init_aliens w).aliens_left ∧
    (check_player_collision w).player.x = 76 ∧
    (check_player_collision w).player_bullet.active = false ∧
    (check_player_collision w).score = 0 ∧
    (check_player_collision w).current_wave = 1 ∧
    (check_player_collision w).alien_direction = 1 ∧
    (check_player_collision w).alien_timer = 20 ∧
    (check_player_collision w).current_alien_rows = 3 ∧
    (⟨50, 60, 100, TONE_TRIANGLE⟩ : ToneEvent) ∈ (check_player_collision w).tones := by
  unfold check_player_collision
  rw [if_pos (player_overlap_any w h)]
  refine ⟨rfl, rfl, rfl, rfl, rfl, rfl, rfl, rfl, rfl, rfl, ?_⟩
  show (⟨50, 60, 100, TONE_TRIANGLE⟩ : ToneEvent) ∈
    (init_aliens { w with
      game_state := GAME_STATE_MENU
      tones := w.tones ++ [⟨50, 60, 100, TONE_TRIANGLE⟩] }).tones
  rw [(init_aliens_untouched _).2.2.2.2.1]
  simp

/-- C1 witness: the amended theorem applied at a concrete overlapping world. -/
theorem player_collision_resets_game_witness :
    (∃ a ∈ collision_world.aliens, a.alive = true ∧
      player_hits collision_world.player a = true) ∧
    (check_player_collision collision_world).game_state = GAME_STATE_MENU ∧
    (check_player_collision collision_world).score = 0 ∧
    (check_player_collision collision_world).alien_timer = 20 := by
  have hex : ∃ a ∈ collision_world.aliens, a.alive = true ∧
      player_hits collision_world.player a = true := by decide
  have hthm := player_collision_resets_game collision_world hex
  exact ⟨hex, hthm.1, hthm.2.2.2.2.2.1, hthm.2.2.2.2.2.2.2.2.1⟩

/-- C2 counterexample: the frozen claim says a star wraps as soon as its new y
exceeds 159.  A star at y = 159 with speed 1 moves to y = 160 — which exceeds
159 — yet the code (`if (stars[i].y > 160)`) does not reset it: y stays 160
and x and the seed are unchanged. -/
theorem star_wrap_threshold_counterexample :
    ((⟨5, 159, 1⟩ : Star).y + minimum (⟨5, 159, 1⟩ : Star).speed 2 > 159) ∧
    (update_star (⟨5, 159, 1⟩, 1)).1.y = 160 ∧
    (update_star (⟨5, 159, 1⟩, 1)).1.x = 5 ∧
    (update_star (⟨5, 159, 1⟩, 1)).2 = 1 := by
  decide

/-- C2 (amended): each frame, each star's y increases by `minimum speed 2`;
whenever the resulting y exceeds 160 (not 159) the star's y is reset to 0 and
its x is replaced by a fresh `random_int 0 159` value (which lies in
[0, 159]); otherwise x and the seed are unchanged.  `draw_background_stars`
applies this step to every star of the pool in order, threading the seed. -/
theorem star_step_spec :
    (∀ st seed, (update_star (st, seed)).1.y =
      (if st.y + minimum st.speed 2 > 160 then 0 else st.y + minimum st.speed 2)) ∧
    (∀ st seed, st.y + minimum st.speed 2 > 160 →
      (update_star (st, seed)).1.x = (random_int 0 159 seed).1 ∧
      0 ≤ (update_star (st, seed)).1.x ∧ (update_star (st, seed)).1.x ≤ 159 ∧
      (update_star (st, seed)).2 = (random_int 0 159 seed).2) ∧
    (∀ st seed, st.y + minimum st.speed 2 ≤ 160 →
      (update_star (st, seed)).1.x = st.x ∧ (update_star (st, seed)).2 = seed) ∧
    (∀ st seed, (update_star (st, seed)).1.speed = st.speed) ∧
    (∀ st rest seed, (stars_step (st :: rest) seed).1 =
      (update_star (st, seed)).1 :: (stars_step rest (update_star (st, seed)).2).1) ∧
    (∀ w, (draw_background_stars w).stars = (stars_step w.stars w.random_seed).1) := by
  refine ⟨?_, ?_, ?_, ?_, fun st rest seed => rfl, fun w => rfl⟩
  · intro st seed
    unfold update_star
    dsimp only
    by_cases hcond : st.y + minimum st.speed 2 > 160
    · rw [if_pos hcond, if_pos hcond]
    · rw [if_neg hcond, if_neg hcond]
  · intro st seed hcond
    unfold update_star
    dsimp only
    rw [if_pos hcond]
    have hb := random_int_bounds 0 159 seed (by norm_num)
    exact ⟨rfl, hb.1, hb.2, rfl⟩
  · intro st seed hcond
    unfold update_star
    dsimp only
    rw [if_neg (by omega)]
    exact ⟨rfl, rfl⟩
  · intro st seed
    unfold update_star
    dsimp only
    by_cases hcond : st.y + minimum st.speed 2 > 160
    · rw [if_pos hcond]
    · rw [if_neg hcond]

/-- C2 witness: the amended step at a wrapping star (y = 160, speed 1, so the
new y is 161 > 160) and at a non-wrapping star. -/
theorem star_step_spec_witness :
    ((⟨0, 160, 1⟩ : Star).y + minimum (⟨0, 160, 1⟩ : Star).speed 2 > 160) ∧
    (update_star ((⟨0, 160, 1⟩ : Star), 1)).1.x = (random_int 0 159 1).1 ∧
    ((⟨5, 10, 1⟩ : Star).y + minimum (⟨5, 10, 1⟩ : Star).speed 2 ≤ 160) ∧
    (update_star ((⟨5, 10, 1⟩ : Star), 1)).1.x = 5 :=
  ⟨by decide, (star_step_spec.2.1 ⟨0, 160, 1⟩ 1 (by decide)).1, by decide,
    (star_step_spec.2.2.1 ⟨5, 10, 1⟩ 1 (by decide)).1⟩

/-- C3 counterexample: the frozen claim says a shot fired from y = 140 keeps
moving for the next 40 frames until y < 0.  In fact after 35 bullet updates
the bullet is at y = 0 (still active) and the 36th update takes it to
y = −4 < 0 and deactivates it — 36 frames, not 40. -/
theorem bullet_lifetime_counterexample :
    bullet_world.player_bullet.y = 140 ∧
    (update_player_bullet^[35] bullet_world).player_bullet.active = true ∧
    (update_player_bullet^[35] bullet_world).player_bullet.y = 0 ∧
    (update_player_bullet^[36] bullet_world).player_bullet.active = false ∧
    (update_player_bullet^[36] bullet_world).player_bullet.y = -4 := by
  decide

/-- C3 (amended): while Playing, if BUTTON_1 is held and the bullet is
inactive, `update_player` activates the bullet at (player.x + 3, player.y)
and emits the 1000 Hz pulse tone that frame; each `update_player_bullet` on an
active bullet decreases y by 4 and keeps it active exactly while the new y is
≥ 0; a shot from y = 140 stays active through 35 further updates (reaching
y = 0) and is deactivated on the 36th — not after 40 frames. -/
theorem bullet_fire_and_flight :
    (∀ g w, w.game_state = GAME_STATE_PLAYING → g &&& BUTTON_1 ≠ 0 →
      w.player_bullet.active = false →
      (update_player g w).player_bullet.active = true ∧
      (update_player g w).player_bullet.x = (update_player g w).player.x + 3 ∧
      (update_player g w).player_bullet.y = w.player.y ∧
      (⟨1000, 10, 50, TONE_PULSE1⟩ : ToneEvent) ∈ (update_player g w).tones) ∧
    (∀ w, w.player_bullet.active = true →
      (update_player_bullet w).player_bullet.y = w.player_bullet.y - 4 ∧
      (update_player_bullet w).player_bullet.active = decide (0 ≤ w.player_bullet.y - 4)) ∧
    ((update_player_bullet^[35] bullet_world).player_bullet.active = true ∧
     (update_player_bullet^[35] bullet_world).player_bullet.y = 0 ∧
     (update_player_bullet^[36] bullet_world).player_bullet.active = false) := by
  refine ⟨?_, ?_, by decide⟩
  · intro g w _ hg hb
    exact update_player_fire g w hg hb
  · intro w h
    exact update_player_bullet_step w h

/-- C3 witness: firing from the concrete playing world and one flight step. -/
theorem bullet_fire_and_flight_witness :
    tiny_world.game_state = GAME_STATE_PLAYING ∧ (1 &&& BUTTON_1 ≠ 0) ∧
    tiny_world.player_bullet.active = false ∧
    (update_player 1 tiny_world).player_bullet.active = true ∧
    bullet_world.player_bullet.active = true ∧
    (update_player_bullet bullet_world).player_bullet.y = 136 := by
  refine ⟨by decide, by decide, by decide, ?_, by decide, ?_⟩
  · exact (bullet_fire_and_flight.1 1 tiny_world (by decide) (by decide) (by decide)).1
  · have h := (bullet_fire_and_flight.2.1 bullet_world (by decide)).1
    rw [h]
    decide

/-- C4: after every `next_wave` call, `current_alien_move_delay` equals
`max 4 (20 − 3 × current_wave)` for the incremented `current_wave`, hence is
always ≥ 4; moreover a frame update never drops it below 4. -/
theorem next_wave_move_delay :
    (∀ w, (next_wave w).current_wave = w.current_wave + 1 ∧
      (next_wave w).current_alien_move_delay =
        max 4 (20 - 3 * (next_wave w).current_wave) ∧
      4 ≤ (next_wave w).current_alien_move_delay) ∧
    (∀ inp w, 4 ≤ w.current_alien_move_delay →
      4 ≤ (update inp w).current_alien_move_delay) := by
  refine ⟨?_, delay_update⟩
  intro w
  have hw := (next_wave_fields w).2.2
  have hdelay : (next_wave w).current_alien_move_delay =
      if 20 - (w.current_wave + 1) * 3 < 5 then 4 else 20 - (w.current_wave + 1) * 3 := by
    rw [next_wave_eq]
    show (init_aliens (next_wave_pre w)).current_alien_move_delay = _
    rw [(init_aliens_untouched _).2.1]
    rfl
  refine ⟨hw, ?_, ?_⟩
  · rw [hdelay, hw]
    split <;> omega
  · rw [hdelay]
    split <;> omega

/-- C4 witness: the frame conjunct applied at a concrete world. -/
theorem next_wave_move_delay_witness :
    4 ≤ tiny_world.current_alien_move_delay ∧
    4 ≤ (update ⟨0, 0⟩ tiny_world).current_alien_move_delay :=
  ⟨by decide, next_wave_move_delay.2 ⟨0, 0⟩ tiny_world (by decide)⟩

/-- C5: on a formation step tick (`alien_timer` reaching 0 inside
`update_aliens`, i.e. entering with `alien_timer ≤ 1`), with
`alien_direction ∈ {+1, −1}`: if some alive alien is at the travel edge
(x ≥ 152 with direction +1, or x ≤ 0 with direction −1) the direction is
negated and every slot's y increases by 5 with every x unchanged; otherwise
every slot's x changes by direction × 5 with every y unchanged — never both
in one tick. -/
theorem update_aliens_formation_step (w : World)
    (hdir : w.alien_direction = 1 ∨ w.alien_direction = -1) (htick : w.alien_timer ≤ 1) :
    (formation_edge_hit w →
      (update_aliens w).alien_direction = -w.alien_direction ∧
      (update_aliens w).aliens = w.aliens.map (fun a => { a with y := a.y + 5 })) ∧
    (¬formation_edge_hit w →
      (update_aliens w).alien_direction = w.alien_direction ∧
      (update_aliens w).aliens =
        w.aliens.map (fun a => { a with x := a.x + w.alien_direction * 5 })) := by
  unfold update_aliens
  dsimp only
  rw [if_pos (show w.alien_timer - 1 ≤ 0 by omega)]
  constructor
  · intro hedge
    rw [if_pos ((edge_hit_iff w hdir).mpr hedge)]
    refine ⟨?_, rfl⟩
    show w.alien_direction * -1 = -w.alien_direction
    omega
  · intro hnedge
    rw [if_neg (show ¬(w.aliens.any (alien_at_edge w.alien_direction) = true) from
      fun hh => hnedge ((edge_hit_iff w hdir).mp hh))]
    exact ⟨rfl, rfl⟩

/-- C5 witness: a step tick at a world with an alive alien on the right edge. -/
theorem update_aliens_formation_step_witness :
    (edge_world.alien_direction = 1 ∨ edge_world.alien_direction = -1) ∧
    edge_world.alien_timer ≤ 1 ∧ formation_edge_hit edge_world ∧
    (update_aliens edge_world).alien_direction = -1 ∧
    (update_aliens edge_world).aliens = [{ x := 152, y := 25, alive := true }] := by
  have h1 : edge_world.alien_direction = 1 ∨ edge_world.alien_direction = -1 :=
    Or.inl (by decide)
  have h2 : edge_world.alien_timer ≤ 1 := by decide
  have h3 : formation_edge_hit edge_world := by
    unfold formation_edge_hit
    decide
  have hthm := (update_aliens_formation_step edge_world h1 h2).1 h3
  refine ⟨h1, h2, h3, ?_, ?_⟩
  · rw [hthm.1]
    decide
  · rw [hthm.2]
    decide

/-- C6: `random_int min max` first advances the seed by the LCG step
`seed × 1103515245 + 12345` masked to 31 bits, then returns
`min + seed % (max − min + 1)`, which for `min ≤ max` always lies in
[min, max]; the value of the k-th call is a pure function of the initial seed
and k. -/
theorem random_int_spec :
    (∀ mn mx seed, (random_int mn mx seed).2 = lcg_next seed ∧
      (random_int mn mx seed).1 =
        mn + ((lcg_next seed % (mx - mn + 1).toNat : Nat) : Int)) ∧
    (∀ mn mx seed, mn ≤ mx →
      mn ≤ (random_int mn mx seed).1 ∧ (random_int mn mx seed).1 ≤ mx) ∧
    (∀ mn mx seed n, rand_iter mn mx seed n = lcg_next^[n] seed) ∧
    (∀ mn mx seed n, (random_int mn mx (rand_iter mn mx seed n)).1 =
      mn + ((lcg_next^[n + 1] seed % (mx - mn + 1).toNat : Nat) : Int)) := by
  refine ⟨fun mn mx seed => ⟨rfl, rfl⟩, random_int_bounds, rand_iter_eq, ?_⟩
  intro mn mx seed n
  rw [rand_iter_eq, Function.iterate_succ_apply']
  rfl

/-- C6 witness: the bounds at (0, 159) with seed 1. -/
theorem random_int_spec_witness :
    (0 : Int) ≤ 159 ∧ 0 ≤ (random_int 0 159 1).1 ∧ (random_int 0 159 1).1 ≤ 159 :=
  ⟨by decide, (random_int_spec.2.1 0 159 1 (by decide)).1,
    (random_int_spec.2.1 0 159 1 (by decide)).2⟩

/-- C7: `aliens_left` equals the number of alive aliens at the end of every
frame: the invariant holds after `start()`, is preserved by every `update`
(hence holds after any input sequence), is established by `init_aliens`
(given the full pool and the program's column count 8), and is preserved by
the bullet-hit path of `check_collisions` and by `next_wave`. -/
theorem aliens_left_matches_alive_count :
    AlienInv start_world ∧
    (∀ inp w, AlienInv w → AlienInv (update inp w)) ∧
    (∀ inputs : List Input, (run inputs).aliens_left = countAlive (run inputs).aliens) ∧
    (∀ w, w.current_alien_cols = 8 → w.aliens.length = TOTAL_ALIENS →
      (init_aliens w).aliens_left = countAlive (init_aliens w).aliens) ∧
    (∀ w, AlienInv w → AlienInv (check_collisions w)) ∧
    (∀ w, AlienInv w → AlienInv (next_wave w)) := by
  refine ⟨AlienInv_start_world, AlienInv_update, ?_, ?_, AlienInv_check_collisions,
    AlienInv_next_wave⟩
  · intro inputs
    exact (run_preserves AlienInv_update inputs start_world AlienInv_start_world).2.2
  · intro w hc h48
    exact (AlienInv_init_aliens w hc h48).2.2

/-- C7 witness: preservation applied at a concrete full-pool world. -/
theorem aliens_left_matches_alive_count_witness :
    AlienInv pool_world ∧ AlienInv (update ⟨0, 0⟩ pool_world) := by
  have h : AlienInv pool_world := by
    unfold AlienInv
    decide
  exact ⟨h, aliens_left_matches_alive_count.2.1 ⟨0, 0⟩ pool_world h⟩

/-- C8: `update_player` clamps `player.x` into [0, 152] for every input, the
bounds `0 ≤ player.x ≤ 152` and `0 ≤ player.y ≤ 152` hold after `start()`,
are preserved by every frame, and therefore hold after any input sequence. -/
theorem player_position_bounds :
    (∀ g w, 0 ≤ (update_player g w).player.x ∧ (update_player g w).player.x ≤ 152) ∧
    PlayerInv start_world ∧
    (∀ inp w, PlayerInv w → PlayerInv (update inp w)) ∧
    (∀ inputs : List Input, 0 ≤ (run inputs).player.x ∧ (run inputs).player.x ≤ 152 ∧
      0 ≤ (run inputs).player.y ∧ (run inputs).player.y ≤ 152) := by
  refine ⟨update_player_x_bounds, PlayerInv_start_world, PlayerInv_update, ?_⟩
  intro inputs
  exact run_preserves PlayerInv_update inputs start_world PlayerInv_start_world

/-- C8 witness: preservation applied at a concrete world. -/
theorem player_position_bounds_witness :
    PlayerInv tiny_world ∧ PlayerInv (update ⟨0, 0⟩ tiny_world) := by
  have h : PlayerInv tiny_world := by
    unfold PlayerInv
    decide
  exact ⟨h, player_position_bounds.2.2.1 ⟨0, 0⟩ tiny_world h⟩

/-- C9: `create_explosion x y` leaves a fully active pool unchanged, and
otherwise replaces exactly the first inactive slot with
`(x, y, life = 10, active)`; in both cases the pool keeps its length (no
writes outside the pool). -/
theorem create_explosion_spec (x y : Int) (es : List Explosion) :
    create_explosion x y es =
      (if ∃ e ∈ es, e.active = false then
        es.set (es.findIdx fun e => !e.active)
          { x := x, y := y, life := EXPLOSION_DURATION, active := true }
       else es) ∧
    (create_explosion x y es).length = es.length := by
  constructor
  · by_cases h : ∃ e ∈ es, e.active = false
    · rw [if_pos h]
      exact create_explosion_first_inactive x y es h
    · rw [if_neg h]
      apply create_explosion_all_active
      intro e he
      push_neg at h
      have hne := h e he
      cases hq : e.active
      · exact absurd hq hne
      · rfl
  · exact create_explosion_length x y es

/-- C10: `start()` sets `player.y = 140` and neither `update_player` nor any
whole frame ever modifies `player.y`, so `player.y = 140` in every reachable
state. -/
theorem player_y_constant :
    start_world.player.y = 140 ∧
    (∀ g w, (update_player g w).player.y = w.player.y) ∧
    (∀ inp w, (update inp w).player.y = w.player.y) ∧
    (∀ inputs : List Input, (run inputs).player.y = 140) := by
  refine ⟨by decide, fun g w => (update_player_fields g w).1, player_y_update, ?_⟩
  intro inputs
  exact run_preserves (P := fun w => w.player.y = 140)
    (fun inp w hw => by
      show (update inp w).player.y = 140
      rw [player_y_update inp w]
      exact hw)
    inputs start_world (by decide)

end WasmInvaders
